import Mathlib

/-!
Verification of the reconciliation / multilateral-netting engine.

The development shallowly embeds the three core components of the
repository:

* the Netting Engine (`calculateNettingPositions`, `generateSettlementLegs`
  from `src/app/api/netting/route.ts`),
* the Matching Engine (`performReconciliation`, `updateInvoiceStatuses`
  from `src/app/api/reconciliation/route.ts`),
* the Settlement Orchestrator (`approveSettlement`, `executeSettlement`
  from `src/app/api/treasury/route.ts`).

Currency and quantity arithmetic is embedded over `ℚ` (the JavaScript
source computes over IEEE doubles; the claims are stated up to epsilon,
and the exact-rational embedding realises the intended real-number
semantics). Timestamps are epoch milliseconds, embedded as `ℚ`.
-/

namespace Netting

structure PartyRef where
  id : String
  name : String
deriving DecidableEq

structure Payment where
  amount : ℚ
  status : String
deriving DecidableEq

/-- An invoice as consumed by `calculateNettingPositions`: the route's
database query pre-filters `payments` to the `COMPLETED` ones, so the
`payments` field here holds the completed payments of the invoice. -/
structure Invoice where
  issuer : PartyRef
  counterparty : PartyRef
  totalAmount : ℚ
  payments : List Payment
deriving DecidableEq

structure NettingPosition where
  partyId : String
  partyName : String
  totalReceivable : ℚ
  totalPayable : ℚ
  netPosition : ℚ
deriving DecidableEq

def emptyPosition (p : PartyRef) : NettingPosition :=
  { partyId := p.id, partyName := p.name
    totalReceivable := 0, totalPayable := 0, netPosition := 0 }

/-- The `positionMap.has / set / get` pattern of the source on a JS `Map`
(keyed by party id, insertion ordered): update the entry of the party if
present, otherwise append a freshly initialised entry and update it. -/
def updatePosition : List NettingPosition → PartyRef →
    (NettingPosition → NettingPosition) → List NettingPosition
  | [], p, f => [f (emptyPosition p)]
  | q :: rest, p, f =>
      if q.partyId = p.id then f q :: rest else q :: updatePosition rest p f

def totalPaid (inv : Invoice) : ℚ :=
  inv.payments.foldl (fun s p => s + p.amount) 0

/-- One iteration of the `for (const invoice of invoices)` loop of
`calculateNettingPositions`. -/
def processInvoice (m : List NettingPosition) (inv : Invoice) :
    List NettingPosition :=
  let outstanding := inv.totalAmount - totalPaid inv
  if outstanding ≤ 0 then m
  else
    let m1 := updatePosition m inv.issuer fun q =>
      { q with totalReceivable := q.totalReceivable + outstanding
               netPosition := q.netPosition + outstanding }
    updatePosition m1 inv.counterparty fun q =>
      { q with totalPayable := q.totalPayable + outstanding
               netPosition := q.netPosition - outstanding }

def calculateNettingPositions (invoices : List Invoice) :
    List NettingPosition :=
  invoices.foldl processInvoice []

def sumNet (l : List NettingPosition) : ℚ :=
  (l.map (·.netPosition)).sum

theorem sumNet_nil : sumNet [] = 0 := rfl

theorem sumNet_cons (p : NettingPosition) (l : List NettingPosition) :
    sumNet (p :: l) = p.netPosition + sumNet l := by
  simp [sumNet]

theorem sumNet_updatePosition (m : List NettingPosition) (p : PartyRef)
    (f : NettingPosition → NettingPosition) (δ : ℚ)
    (hf : ∀ q, (f q).netPosition = q.netPosition + δ) :
    sumNet (updatePosition m p f) = sumNet m + δ := by
  induction m with
  | nil =>
      simp only [updatePosition, sumNet, List.map_cons, List.map_nil,
        List.sum_cons, List.sum_nil, hf (emptyPosition p)]
      simp [emptyPosition]
  | cons q rest ih =>
      by_cases h : q.partyId = p.id
      · simp only [updatePosition, if_pos h, sumNet_cons, hf q]
        ring
      · simp only [updatePosition, if_neg h, sumNet_cons, ih]
        ring

theorem sumNet_processInvoice (m : List NettingPosition) (inv : Invoice) :
    sumNet (processInvoice m inv) = sumNet m := by
  unfold processInvoice
  by_cases h : inv.totalAmount - totalPaid inv ≤ 0
  · simp [h]
  · simp only [if_neg h]
    rw [sumNet_updatePosition _ _ _ (-(inv.totalAmount - totalPaid inv))
          (fun q => by simp; ring),
        sumNet_updatePosition _ _ _ (inv.totalAmount - totalPaid inv)
          (fun q => by simp)]
    ring

theorem sumNet_foldl (invoices : List Invoice) (m : List NettingPosition) :
    sumNet (invoices.foldl processInvoice m) = sumNet m := by
  induction invoices generalizing m with
  | nil => rfl
  | cons inv rest ih =>
      simp only [List.foldl_cons, ih, sumNet_processInvoice]

/-- C1: conservation. For every input list of invoices (with their
completed payments), the net positions computed by
`calculateNettingPositions` sum to exactly zero: every receivable added
to an issuer's position is subtracted from the counterparty's. -/
theorem netting_conservation (invoices : List Invoice) :
    sumNet (calculateNettingPositions invoices) = 0 := by
  unfold calculateNettingPositions
  rw [sumNet_foldl]
  rfl

structure SettlementLeg where
  payerId : String
  payerName : String
  payeeId : String
  payeeName : String
  amount : ℚ
  currency : String
deriving DecidableEq

/-- Insertion into a list sorted by `le`; `sortByLe` embeds the
JavaScript `Array.prototype.sort` with a numeric comparator (the claims
proved below do not depend on the particular sort, only on it being a
permutation). -/
def insertLe (le : α → α → Bool) (a : α) : List α → List α
  | [] => [a]
  | b :: bs => if le a b then a :: b :: bs else b :: insertLe le a bs

def sortByLe (le : α → α → Bool) (l : List α) : List α :=
  l.foldr (insertLe le) []

/-- Debtor list of `generateSettlementLegs`: parties with a strictly
negative net position, sorted ascending (most negative first). -/
def debtorsOf (positions : List NettingPosition) : List NettingPosition :=
  sortByLe (fun a b => decide (a.netPosition ≤ b.netPosition))
    (positions.filter fun p => decide (p.netPosition < 0))

/-- Creditor list of `generateSettlementLegs`: parties with a strictly
positive net position, sorted descending (most positive first). -/
def creditorsOf (positions : List NettingPosition) : List NettingPosition :=
  sortByLe (fun a b => decide (b.netPosition ≤ a.netPosition))
    (positions.filter fun p => decide (0 < p.netPosition))

/-- The `while (debtorIndex < debtors.length && creditorIndex < creditors.length)`
loop of `generateSettlementLegs`, with the two index advances embedded as
list consumption and the loop bounded by fuel (each productive iteration
zeroes at least one side, so `debtors.length + creditors.length` fuel is
enough; an unproductive iteration, impossible for filtered inputs, loops
in the source and exhausts the fuel here). -/
def settleLoop : ℕ → List NettingPosition → List NettingPosition →
    List SettlementLeg
  | 0, _, _ => []
  | _ + 1, [], _ => []
  | _ + 1, _ :: _, [] => []
  | fuel + 1, d :: ds, c :: cs =>
      let debtorOwes := |d.netPosition|
      let creditorIsOwed := c.netPosition
      let settlementAmount := min debtorOwes creditorIsOwed
      if 0 < settlementAmount then
        let d' := { d with netPosition := d.netPosition + settlementAmount }
        let c' := { c with netPosition := c.netPosition - settlementAmount }
        { payerId := d.partyId, payerName := d.partyName
          payeeId := c.partyId, payeeName := c.partyName
          amount := settlementAmount, currency := "GHS" } ::
          settleLoop fuel
            (if |d'.netPosition| < 1/100 then ds else d' :: ds)
            (if c'.netPosition < 1/100 then cs else c' :: cs)
      else
        settleLoop fuel (d :: ds) (c :: cs)

def generateSettlementLegs (positions : List NettingPosition) :
    List SettlementLeg :=
  settleLoop ((debtorsOf positions).length + (creditorsOf positions).length)
    (debtorsOf positions) (creditorsOf positions)

def legsSum (legs : List SettlementLeg) : ℚ :=
  (legs.map (·.amount)).sum

/-- Sum of the positive net positions. -/
def positiveSum (positions : List NettingPosition) : ℚ :=
  sumNet (positions.filter fun p => decide (0 < p.netPosition))

/-- Sum of the absolute values of the negative net positions. -/
def negativeAbsSum (positions : List NettingPosition) : ℚ :=
  (((positions.filter fun p => decide (p.netPosition < 0)).map
    fun p => |p.netPosition|)).sum

/-- A rational is an integer multiple of 0.01, one cent — the epsilon
used by the pointer advances of `generateSettlementLegs`. -/
def isCent (q : ℚ) : Prop := ∃ k : ℤ, q * 100 = (k : ℚ)

theorem isCent_add {a b : ℚ} (ha : isCent a) (hb : isCent b) :
    isCent (a + b) := by
  obtain ⟨k, hk⟩ := ha
  obtain ⟨m, hm⟩ := hb
  exact ⟨k + m, by push_cast; rw [add_mul, hk, hm]⟩

theorem isCent_neg {a : ℚ} (ha : isCent a) : isCent (-a) := by
  obtain ⟨k, hk⟩ := ha
  exact ⟨-k, by push_cast; rw [neg_mul, hk]⟩

theorem isCent_sub {a b : ℚ} (ha : isCent a) (hb : isCent b) :
    isCent (a - b) := by
  rw [sub_eq_add_neg]
  exact isCent_add ha (isCent_neg hb)

theorem isCent_abs {a : ℚ} (ha : isCent a) : isCent |a| := by
  rcases abs_choice a with h | h
  · rwa [h]
  · rw [h]; exact isCent_neg ha

theorem isCent_min {a b : ℚ} (ha : isCent a) (hb : isCent b) :
    isCent (min a b) := by
  rcases min_choice a b with h | h <;> rw [h] <;> assumption

theorem isCent.eq_zero_of_abs_lt {q : ℚ} (hc : isCent q)
    (h : |q| < 1/100) : q = 0 := by
  obtain ⟨k, hk⟩ := hc
  have habs : |(k : ℚ)| < 1 := by
    rw [← hk, abs_mul]
    have : |(100 : ℚ)| = 100 := by norm_num
    rw [this]
    linarith [abs_nonneg q]
  have hkz : k = 0 := by
    have h1 : |k| < 1 := by exact_mod_cast habs
    exact Int.abs_lt_one_iff.mp h1
  subst hkz
  have : q * 100 = 0 := by rw [hk]; norm_num
  linarith [this]

theorem isCent.abs_ge_of_ne_zero {q : ℚ} (hc : isCent q) (h : q ≠ 0) :
    1/100 ≤ |q| := by
  by_contra hlt
  exact h (hc.eq_zero_of_abs_lt (lt_of_not_le hlt))

theorem insertLe_perm (le : α → α → Bool) (a : α) (l : List α) :
    List.Perm (insertLe le a l) (a :: l) := by
  induction l with
  | nil => exact List.Perm.refl _
  | cons b bs ih =>
      by_cases h : le a b
      · simp [insertLe, h]
      · simp only [insertLe, if_neg h]
        exact (ih.cons b).trans (List.Perm.swap a b bs)

theorem sortByLe_perm (le : α → α → Bool) (l : List α) :
    List.Perm (sortByLe le l) l := by
  induction l with
  | nil => exact List.Perm.refl _
  | cons a rest ih =>
      simp only [sortByLe, List.foldr_cons]
      exact (insertLe_perm le a _).trans (ih.cons a)

theorem mem_sortByLe {le : α → α → Bool} {l : List α} {a : α} :
    a ∈ sortByLe le l ↔ a ∈ l :=
  (sortByLe_perm le l).mem_iff

theorem sumNet_sortByLe (le : NettingPosition → NettingPosition → Bool)
    (l : List NettingPosition) : sumNet (sortByLe le l) = sumNet l := by
  unfold sumNet
  exact ((sortByLe_perm le l).map (fun p => p.netPosition)).sum_eq

theorem legsSum_nil : legsSum [] = 0 := rfl

theorem legsSum_cons (leg : SettlementLeg) (legs : List SettlementLeg) :
    legsSum (leg :: legs) = leg.amount + legsSum legs := by
  simp [legsSum]

theorem sumNet_filter_split (l : List NettingPosition) :
    sumNet (l.filter fun p => decide (p.netPosition < 0)) +
      sumNet (l.filter fun p => decide (0 < p.netPosition)) = sumNet l := by
  induction l with
  | nil => simp [sumNet]
  | cons p rest ih =>
      rcases lt_trichotomy p.netPosition 0 with h | h | h
      · have h2 : ¬ (0 < p.netPosition) := by linarith
        simp only [List.filter_cons]
        rw [if_pos (by simpa using h), if_neg (by simpa using h2),
          sumNet_cons, sumNet_cons]
        linarith
      · have h1 : ¬ (p.netPosition < 0) := by linarith
        have h2 : ¬ (0 < p.netPosition) := by linarith
        simp only [List.filter_cons]
        rw [if_neg (by simpa using h1), if_neg (by simpa using h2),
          sumNet_cons, h]
        linarith
      · have h1 : ¬ (p.netPosition < 0) := by linarith
        simp only [List.filter_cons]
        rw [if_neg (by simpa using h1), if_pos (by simpa using h),
          sumNet_cons, sumNet_cons]
        linarith

theorem negativeAbsSum_eq (l : List NettingPosition) :
    negativeAbsSum l =
      - sumNet (l.filter fun p => decide (p.netPosition < 0)) := by
  induction l with
  | nil => simp [negativeAbsSum, sumNet]
  | cons p rest ih =>
      by_cases h : p.netPosition < 0
      · simp only [negativeAbsSum, List.filter_cons] at *
        rw [if_pos (by simpa using h)] at *
        simp only [List.map_cons, List.sum_cons] at *
        rw [sumNet_cons, abs_of_neg h]
        linarith
      · simp only [negativeAbsSum, List.filter_cons] at *
        rw [if_neg (by simpa using h)] at *
        exact ih

theorem settleLoop_coverage (fuel : ℕ) :
    ∀ ds cs : List NettingPosition,
      (∀ p ∈ ds, p.netPosition < 0 ∧ isCent p.netPosition) →
      (∀ p ∈ cs, 0 < p.netPosition ∧ isCent p.netPosition) →
      sumNet ds + sumNet cs = 0 →
      ds.length + cs.length ≤ fuel →
      legsSum (settleLoop fuel ds cs) = sumNet cs := by
  induction fuel with
  | zero =>
      intro ds cs _ _ hsum hlen
      have hds : ds = [] := List.eq_nil_of_length_eq_zero (by omega)
      have hcs : cs = [] := List.eq_nil_of_length_eq_zero (by omega)
      subst hds; subst hcs
      rfl
  | succ fuel ih =>
      intro ds cs hd hc hsum hlen
      rcases ds with _ | ⟨d, ds'⟩
      · have h0 : sumNet cs = 0 := by
          have : sumNet ([] : List NettingPosition) + sumNet cs = 0 := hsum
          rw [sumNet_nil] at this
          linarith
        rw [h0]
        rfl
      rcases cs with _ | ⟨c, cs'⟩
      · rfl
      obtain ⟨hd0, hdc⟩ := hd d (List.mem_cons_self d ds')
      obtain ⟨hc0, hcc⟩ := hc c (List.mem_cons_self c cs')
      have hdtail : ∀ p ∈ ds', p.netPosition < 0 ∧ isCent p.netPosition :=
        fun p hp => hd p (List.mem_cons_of_mem d hp)
      have hctail : ∀ p ∈ cs', 0 < p.netPosition ∧ isCent p.netPosition :=
        fun p hp => hc p (List.mem_cons_of_mem c hp)
      set amt := min |d.netPosition| c.netPosition with hamt_def
      have hamt : 0 < amt :=
        lt_min (abs_pos.mpr (ne_of_lt hd0)) hc0
      have hamtCent : isCent amt := isCent_min (isCent_abs hdc) hcc
      have hdres_le : d.netPosition + amt ≤ 0 := by
        have h1 : amt ≤ |d.netPosition| := min_le_left _ _
        rw [abs_of_neg hd0] at h1
        linarith
      have hcres_ge : 0 ≤ c.netPosition - amt := by
        have := min_le_right |d.netPosition| c.netPosition
        linarith
      have hdresCent : isCent (d.netPosition + amt) := isCent_add hdc hamtCent
      have hcresCent : isCent (c.netPosition - amt) := isCent_sub hcc hamtCent
      have hone : amt = |d.netPosition| ∨ amt = c.netPosition :=
        min_choice _ _
      simp only [settleLoop]
      rw [if_pos hamt]
      rw [legsSum_cons]
      simp only []
      rw [sumNet_cons, sumNet_cons] at hsum
      by_cases hX : |d.netPosition + amt| < 1/100
      · have hdzero : d.netPosition + amt = 0 :=
          hdresCent.eq_zero_of_abs_lt hX
        rw [if_pos hX]
        by_cases hY : c.netPosition - amt < 1/100
        · have hczero : c.netPosition - amt = 0 := by
            apply hcresCent.eq_zero_of_abs_lt
            rw [abs_of_nonneg hcres_ge]
            exact hY
          rw [if_pos hY]
          rw [ih ds' cs' hdtail hctail (by linarith) (by simp at hlen; omega)]
          rw [sumNet_cons]
          linarith
        · rw [if_neg hY]
          have hc' : 0 < c.netPosition - amt := by
            rcases lt_or_eq_of_le hcres_ge with h | h
            · exact h
            · exact absurd (by rw [← h]; norm_num) hY
          rw [ih ds' ({ c with netPosition := c.netPosition - amt } :: cs')
            hdtail
            (by
              intro p hp
              rcases List.mem_cons.mp hp with h | h
              · subst h; exact ⟨hc', hcresCent⟩
              · exact hctail p h)
            (by rw [sumNet_cons]; simp only []; linarith)
            (by simp at hlen ⊢; omega)]
          rw [sumNet_cons, sumNet_cons]
          simp only []
          linarith
      · have hd' : d.netPosition + amt < 0 := by
          rcases lt_or_eq_of_le hdres_le with h | h
          · exact h
          · exact absurd (by rw [h]; norm_num) hX
        rw [if_neg hX]
        have hczero : c.netPosition - amt = 0 := by
          rcases hone with h | h
          · exfalso
            apply hX
            rw [h, abs_of_neg hd0]
            norm_num
          · rw [h]; ring
        have hY : c.netPosition - amt < 1/100 := by
          rw [hczero]; norm_num
        rw [if_pos hY]
        rw [ih ({ d with netPosition := d.netPosition + amt } :: ds') cs'
          (by
            intro p hp
            rcases List.mem_cons.mp hp with h | h
            · subst h; exact ⟨hd', hdresCent⟩
            · exact hdtail p h)
          hctail
          (by rw [sumNet_cons]; simp only []; linarith)
          (by simp at hlen ⊢; omega)]
        rw [sumNet_cons]
        linarith

/-- C2 (amended): when every net position is an integer multiple of 0.01
(the pointer-advance epsilon of the source), the greedy leg generator
covers the positions exactly: the legs sum to the sum of the positive
net positions, which equals the sum of the absolute values of the
negative ones. (Without the 0.01-multiple hypothesis the claim is false:
see `legs_coverage_counterexample`.) -/
theorem legs_coverage_cents (positions : List NettingPosition)
    (hsum : sumNet positions = 0)
    (hcent : ∀ p ∈ positions, isCent p.netPosition) :
    legsSum (generateSettlementLegs positions) = positiveSum positions ∧
      positiveSum positions = negativeAbsSum positions := by
  have hsplit := sumNet_filter_split positions
  have hposEq : sumNet (creditorsOf positions) = positiveSum positions :=
    sumNet_sortByLe _ _
  have hnegEq : sumNet (debtorsOf positions) =
      sumNet (positions.filter fun p => decide (p.netPosition < 0)) :=
    sumNet_sortByLe _ _
  have hd : ∀ p ∈ debtorsOf positions,
      p.netPosition < 0 ∧ isCent p.netPosition := by
    intro p hp
    rw [debtorsOf, mem_sortByLe, List.mem_filter] at hp
    exact ⟨by simpa using hp.2, hcent p hp.1⟩
  have hc : ∀ p ∈ creditorsOf positions,
      0 < p.netPosition ∧ isCent p.netPosition := by
    intro p hp
    rw [creditorsOf, mem_sortByLe, List.mem_filter] at hp
    exact ⟨by simpa using hp.2, hcent p hp.1⟩
  have hsum' : sumNet (debtorsOf positions) +
      sumNet (creditorsOf positions) = 0 := by
    rw [hposEq, hnegEq, positiveSum] at *
    linarith
  refine ⟨?_, ?_⟩
  · rw [generateSettlementLegs,
      settleLoop_coverage _ _ _ hd hc hsum' (le_refl _), hposEq]
  · rw [negativeAbsSum_eq]
    rw [positiveSum]
    linarith

/-- Concrete positions with sub-cent residuals: A owes 10.005, B is owed
10, C is owed 0.005; they sum to zero. -/
def residualPositions : List NettingPosition :=
  [{ partyId := "A", partyName := "A", totalReceivable := 0,
     totalPayable := 2001/200, netPosition := -(2001/200) },
   { partyId := "B", partyName := "B", totalReceivable := 10,
     totalPayable := 0, netPosition := 10 },
   { partyId := "C", partyName := "C", totalReceivable := 1/200,
     totalPayable := 0, netPosition := 1/200 }]

/-- C2 (counterexample): the claim as stated is false. For
`residualPositions` (which sum to zero) the greedy generator emits a
single 10-unit leg and then drops debtor A, whose remaining 0.005 debt
is within the 0.01 advance epsilon, so creditor C is never paid: the
legs sum to 10 while the positive positions sum to 10.005. -/
theorem legs_coverage_counterexample :
    sumNet residualPositions = 0 ∧
      legsSum (generateSettlementLegs residualPositions) ≠
        positiveSum residualPositions := by
  constructor
  · norm_num [residualPositions, sumNet]
  · norm_num [residualPositions, generateSettlementLegs, debtorsOf,
      creditorsOf, sortByLe, insertLe, settleLoop, legsSum, positiveSum,
      sumNet, min_def, abs_of_neg, abs_of_nonneg]

/-- Two cent-quantized positions: A owes 0.03, B is owed 0.03. -/
def centPositions : List NettingPosition :=
  [{ partyId := "A", partyName := "A", totalReceivable := 0,
     totalPayable := 3/100, netPosition := -(3/100) },
   { partyId := "B", partyName := "B", totalReceivable := 3/100,
     totalPayable := 0, netPosition := 3/100 }]

theorem legs_coverage_cents_witness :
    legsSum (generateSettlementLegs centPositions) =
        positiveSum centPositions ∧
      positiveSum centPositions = negativeAbsSum centPositions :=
  legs_coverage_cents centPositions
    (by norm_num [centPositions, sumNet])
    (by
      intro p hp
      simp only [centPositions, List.mem_cons, List.not_mem_nil,
        or_false] at hp
      rcases hp with h | h
      · subst h; exact ⟨-3, by norm_num⟩
      · subst h; exact ⟨3, by norm_num⟩)

end Netting

namespace Reconciliation

structure ReconciliationRule where
  type : String
  value : ℚ
  unit : String
deriving DecidableEq

/-- The parsed JSON line items of an invoice: declared commodity
quantities. -/
structure LineItems where
  energy : ℚ
  gas : ℚ
  fuel : ℚ
deriving DecidableEq

structure Delivery where
  deliveryId : String
  contractId : String
  timestamp : ℚ
  quantity : ℚ
deriving DecidableEq

/-- An invoice as read by the reconciliation route. `id` is the database
primary key (referenced by disputes); `invoiceId` is the business key
the route matches on. `lineItems` is `none` when `JSON.parse` fails
(the fail-soft path of the source). -/
structure Invoice where
  invoiceId : String
  id : String
  contractId : String
  issuerId : String
  counterpartyId : String
  periodStart : ℚ
  periodEnd : ℚ
  totalAmount : ℚ
  lineItems : Option LineItems
  status : String
  confidenceScore : Option ℚ
  matchedDeliveries : Option (List String)
deriving DecidableEq

structure MatchRecord where
  invoiceId : String
  deliveryIds : List String
  confidenceScore : ℚ
  matchedAmount : ℚ
  variance : ℚ
deriving DecidableEq

structure ExceptionRecord where
  invoiceId : String
  reason : String
  severity : String
  recommendation : String
deriving DecidableEq

structure Summary where
  totalInvoices : ℕ
  matchedInvoices : ℕ
  exceptionalInvoices : ℕ
  matchRate : ℚ
  totalMatchedAmount : ℚ
deriving DecidableEq

structure ReconciliationResult where
  matched : List MatchRecord
  exceptions : List ExceptionRecord
  summary : Summary
deriving DecidableEq

def timeWindowMs (rules : List ReconciliationRule) : ℚ :=
  match rules.find? (fun r => r.type == "TIME_WINDOW") with
  | some r => r.value * 24 * 60 * 60 * 1000
  | none => 7 * 24 * 60 * 60 * 1000

def tolerancePercent (rules : List ReconciliationRule) : ℚ :=
  match rules.find? (fun r => r.type == "TOLERANCE_BAND") with
  | some r => r.value
  | none => 5

/-- Deliveries on the invoice's contract whose timestamp falls within
the widened invoice period. -/
def matchingDeliveries (deliveries : List Delivery)
    (rules : List ReconciliationRule) (inv : Invoice) : List Delivery :=
  deliveries.filter fun d =>
    d.contractId == inv.contractId &&
      decide (inv.periodStart - timeWindowMs rules ≤ d.timestamp) &&
      decide (d.timestamp ≤ inv.periodEnd + timeWindowMs rules)

def totalDelivered (ds : List Delivery) : ℚ :=
  ds.foldl (fun s d => s + d.quantity) 0

/-- `lineItems.energy || lineItems.gas || lineItems.fuel || 0`: the
first non-zero (truthy) declared quantity; 0 on parse failure. -/
def expectedQuantity (inv : Invoice) : ℚ :=
  match inv.lineItems with
  | none => 0
  | some li =>
      if li.energy ≠ 0 then li.energy
      else if li.gas ≠ 0 then li.gas
      else if li.fuel ≠ 0 then li.fuel
      else 0

def variance (deliveries : List Delivery)
    (rules : List ReconciliationRule) (inv : Invoice) : ℚ :=
  let e := expectedQuantity inv
  let d := totalDelivered (matchingDeliveries deliveries rules inv)
  if 0 < e then |(d - e) / e * 100| else 100

/-- `Number.prototype.toFixed(1)`: round to one decimal digit, ties
toward the larger value. -/
def toFixed1 (v : ℚ) : String :=
  let n : ℤ := ⌊v * 10 + 1/2⌋
  let s := toString (n.natAbs / 10) ++ "." ++ toString (n.natAbs % 10)
  if n < 0 then "-" ++ s else s

def recommendationText (v : ℚ) : String :=
  "Quantity variance of " ++ toFixed1 v ++ "% exceeds tolerance"

/-- One iteration of the `for (const invoice of invoices)` loop of
`performReconciliation`: either a match record or an exception record. -/
def reconcileInvoice (deliveries : List Delivery)
    (rules : List ReconciliationRule) (inv : Invoice) :
    Sum MatchRecord ExceptionRecord :=
  let ms := matchingDeliveries deliveries rules inv
  if ms = [] then
    Sum.inr { invoiceId := inv.invoiceId, reason := "NO_MATCHING_DELIVERIES"
              severity := "HIGH"
              recommendation := "Verify delivery data or invoice period" }
  else
    let v := variance deliveries rules inv
    if v ≤ tolerancePercent rules then
      Sum.inl { invoiceId := inv.invoiceId
                deliveryIds := ms.map (fun d => d.deliveryId)
                confidenceScore := max 0 (100 - v)
                matchedAmount := inv.totalAmount, variance := v }
    else
      Sum.inr { invoiceId := inv.invoiceId, reason := "QUANTITY_VARIANCE"
                severity :=
                  if 20 < v then "HIGH" else if 10 < v then "MEDIUM"
                  else "LOW"
                recommendation := recommendationText v }

def reconStep (deliveries : List Delivery)
    (rules : List ReconciliationRule)
    (acc : List MatchRecord × List ExceptionRecord) (inv : Invoice) :
    List MatchRecord × List ExceptionRecord :=
  match reconcileInvoice deliveries rules inv with
  | Sum.inl m => (acc.1 ++ [m], acc.2)
  | Sum.inr e => (acc.1, acc.2 ++ [e])

def performReconciliation (invoices : List Invoice)
    (deliveries : List Delivery) (rules : List ReconciliationRule) :
    ReconciliationResult :=
  let p := invoices.foldl (reconStep deliveries rules) ([], [])
  { matched := p.1
    exceptions := p.2
    summary :=
      { totalInvoices := invoices.length
        matchedInvoices := p.1.length
        exceptionalInvoices := p.2.length
        matchRate :=
          if 0 < invoices.length then
            (p.1.length : ℚ) / (invoices.length : ℚ) * 100
          else 0
        totalMatchedAmount := p.1.foldl (fun s m => s + m.matchedAmount) 0 } }

def getDefaultRules : List ReconciliationRule :=
  [{ type := "TIME_WINDOW", value := 7, unit := "DAYS" },
   { type := "TOLERANCE_BAND", value := 5, unit := "PERCENTAGE" },
   { type := "CONTRACT_TERMS", value := 1, unit := "FIXED" }]

/-- C5: for an invoice with at least one matching delivery and a
(non-negative, per the data model) expected quantity, the computed
variance equals `|totalDelivered - expectedQuantity| / expectedQuantity
* 100` (and is 100 when the expected quantity is 0), the match record's
confidence score is `max 0 (100 - variance)`, and the invoice is
classified as matched exactly when `variance ≤ ToleranceBand`
(inclusive boundary). -/
theorem variance_confidence_tolerance (deliveries : List Delivery)
    (rules : List ReconciliationRule) (inv : Invoice)
    (hne : matchingDeliveries deliveries rules inv ≠ [])
    (hnn : 0 ≤ expectedQuantity inv) :
    variance deliveries rules inv =
      (if expectedQuantity inv = 0 then 100
       else |totalDelivered (matchingDeliveries deliveries rules inv) -
              expectedQuantity inv| / expectedQuantity inv * 100) ∧
    (∀ m, reconcileInvoice deliveries rules inv = Sum.inl m →
        m.confidenceScore = max 0 (100 - variance deliveries rules inv) ∧
        m.variance = variance deliveries rules inv) ∧
    ((∃ m, reconcileInvoice deliveries rules inv = Sum.inl m) ↔
      variance deliveries rules inv ≤ tolerancePercent rules) := by
  refine ⟨?_, ?_, ?_⟩
  · unfold variance
    by_cases he : expectedQuantity inv = 0
    · have h1 : ¬ (0 < expectedQuantity inv) := by rw [he]; norm_num
      simp only [h1, if_false, if_pos he]
    · have h1 : 0 < expectedQuantity inv := lt_of_le_of_ne hnn (Ne.symm he)
      simp only [h1, if_true, if_neg he]
      rw [abs_mul, abs_div, abs_of_pos h1]
      norm_num
  · intro m hm
    unfold reconcileInvoice at hm
    rw [if_neg hne] at hm
    by_cases hv : variance deliveries rules inv ≤ tolerancePercent rules
    · rw [if_pos hv] at hm
      cases hm
      exact ⟨rfl, rfl⟩
    · rw [if_neg hv] at hm
      cases hm
  · constructor
    · rintro ⟨m, hm⟩
      unfold reconcileInvoice at hm
      rw [if_neg hne] at hm
      by_cases hv : variance deliveries rules inv ≤ tolerancePercent rules
      · exact hv
      · rw [if_neg hv] at hm
        cases hm
    · intro hv
      unfold reconcileInvoice
      rw [if_neg hne, if_pos hv]
      exact ⟨_, rfl⟩

/-- C6: exception severities. With zero matching deliveries the invoice
becomes a `NO_MATCHING_DELIVERIES` exception of severity HIGH;
otherwise an out-of-tolerance variance yields a `QUANTITY_VARIANCE`
exception whose severity is HIGH above 20, MEDIUM above 10 and up to
20, and LOW otherwise. -/
theorem exception_severity (deliveries : List Delivery)
    (rules : List ReconciliationRule) (inv : Invoice) :
    (matchingDeliveries deliveries rules inv = [] →
      reconcileInvoice deliveries rules inv =
        Sum.inr { invoiceId := inv.invoiceId
                  reason := "NO_MATCHING_DELIVERIES", severity := "HIGH"
                  recommendation :=
                    "Verify delivery data or invoice period" }) ∧
    (matchingDeliveries deliveries rules inv ≠ [] →
      tolerancePercent rules < variance deliveries rules inv →
      ∀ exc, reconcileInvoice deliveries rules inv = Sum.inr exc →
        exc.reason = "QUANTITY_VARIANCE" ∧
        (20 < variance deliveries rules inv → exc.severity = "HIGH") ∧
        (10 < variance deliveries rules inv →
          variance deliveries rules inv ≤ 20 →
          exc.severity = "MEDIUM") ∧
        (variance deliveries rules inv ≤ 10 →
          exc.severity = "LOW")) := by
  constructor
  · intro h
    unfold reconcileInvoice
    rw [if_pos h]
  · intro hne hv exc hexc
    unfold reconcileInvoice at hexc
    rw [if_neg hne, if_neg (not_le_of_lt hv)] at hexc
    cases hexc
    refine ⟨rfl, ?_, ?_, ?_⟩
    · intro h20
      simp only [if_pos h20]
    · intro h10 h20
      rw [if_neg (not_lt_of_le h20), if_pos h10]
    · intro h10
      rw [if_neg (by linarith : ¬ (20 : ℚ) < variance deliveries rules inv),
        if_neg (not_lt_of_le h10)]

/-- A delivery of 1030 units on contract CT1, inside the window. -/
def w5Delivery : Delivery :=
  { deliveryId := "D1", contractId := "CT1", timestamp := 0,
    quantity := 1030 }

/-- An invoice declaring 1000 units of energy on contract CT1. -/
def w5Invoice : Invoice :=
  { invoiceId := "INV-1", id := "id1", contractId := "CT1"
    issuerId := "P1", counterpartyId := "P2"
    periodStart := 0, periodEnd := 0, totalAmount := 100
    lineItems := some { energy := 1000, gas := 0, fuel := 0 }
    status := "PENDING", confidenceScore := none
    matchedDeliveries := none }

theorem variance_confidence_tolerance_witness :
    matchingDeliveries [w5Delivery] getDefaultRules w5Invoice ≠ [] ∧
    0 ≤ expectedQuantity w5Invoice ∧
    (variance [w5Delivery] getDefaultRules w5Invoice =
      (if expectedQuantity w5Invoice = 0 then 100
       else |totalDelivered
              (matchingDeliveries [w5Delivery] getDefaultRules w5Invoice) -
              expectedQuantity w5Invoice| / expectedQuantity w5Invoice *
              100) ∧
    (∀ m, reconcileInvoice [w5Delivery] getDefaultRules w5Invoice =
        Sum.inl m →
        m.confidenceScore =
          max 0 (100 - variance [w5Delivery] getDefaultRules w5Invoice) ∧
        m.variance = variance [w5Delivery] getDefaultRules w5Invoice) ∧
    ((∃ m, reconcileInvoice [w5Delivery] getDefaultRules w5Invoice =
        Sum.inl m) ↔
      variance [w5Delivery] getDefaultRules w5Invoice ≤
        tolerancePercent getDefaultRules)) :=
  ⟨by norm_num [matchingDeliveries, timeWindowMs, getDefaultRules,
      w5Delivery, w5Invoice, List.find?, List.filter],
   by norm_num [expectedQuantity, w5Invoice],
   variance_confidence_tolerance [w5Delivery] getDefaultRules w5Invoice
     (by norm_num [matchingDeliveries, timeWindowMs, getDefaultRules,
        w5Delivery, w5Invoice, List.find?, List.filter])
     (by norm_num [expectedQuantity, w5Invoice])⟩

/-- A delivery of 700 units against a declared 1000: variance 30. -/
def w6Delivery : Delivery :=
  { deliveryId := "D2", contractId := "CT1", timestamp := 0,
    quantity := 700 }

def w6Invoice : Invoice :=
  { invoiceId := "INV-2", id := "id2", contractId := "CT1"
    issuerId := "P1", counterpartyId := "P2"
    periodStart := 0, periodEnd := 0, totalAmount := 100
    lineItems := some { energy := 1000, gas := 0, fuel := 0 }
    status := "PENDING", confidenceScore := none
    matchedDeliveries := none }

def w6Exception : ExceptionRecord :=
  { invoiceId := "INV-2", reason := "QUANTITY_VARIANCE"
    severity := "HIGH", recommendation := recommendationText 30 }

theorem exception_severity_witness :
    reconcileInvoice [w6Delivery] getDefaultRules w6Invoice =
      Sum.inr w6Exception ∧
    w6Exception.reason = "QUANTITY_VARIANCE" ∧
    w6Exception.severity = "HIGH" := by
  have hvar : variance [w6Delivery] getDefaultRules w6Invoice = 30 := by
    norm_num [variance, matchingDeliveries, timeWindowMs, getDefaultRules,
      w6Delivery, w6Invoice, List.find?, List.filter, totalDelivered,
      expectedQuantity, abs_of_neg, abs_of_nonneg]
  have hne : matchingDeliveries [w6Delivery] getDefaultRules w6Invoice
      ≠ [] := by
    norm_num [matchingDeliveries, timeWindowMs, getDefaultRules,
      w6Delivery, w6Invoice, List.find?, List.filter]
  have htol : tolerancePercent getDefaultRules = 5 := rfl
  have hexc : reconcileInvoice [w6Delivery] getDefaultRules w6Invoice =
      Sum.inr w6Exception := by
    unfold reconcileInvoice
    rw [if_neg hne]
    rw [if_neg (by rw [hvar, htol]; norm_num)]
    rw [hvar]
    norm_num [w6Exception, w6Invoice]
  have hsev :=
    ((exception_severity [w6Delivery] getDefaultRules w6Invoice).2 hne
      (by rw [hvar, htol]; norm_num)
      w6Exception hexc)
  exact ⟨hexc, hsev.1, hsev.2.1 (by rw [hvar]; norm_num)⟩

def countInvoiceId (l : List Invoice) (s : String) : ℕ :=
  (l.filter fun i => i.invoiceId == s).length

def countMatchedId (l : List MatchRecord) (s : String) : ℕ :=
  (l.filter fun m => m.invoiceId == s).length

def countExceptionId (l : List ExceptionRecord) (s : String) : ℕ :=
  (l.filter fun e => e.invoiceId == s).length

theorem reconcileInvoice_invoiceId (deliveries : List Delivery)
    (rules : List ReconciliationRule) (inv : Invoice) :
    (∀ m, reconcileInvoice deliveries rules inv = Sum.inl m →
      m.invoiceId = inv.invoiceId) ∧
    (∀ e, reconcileInvoice deliveries rules inv = Sum.inr e →
      e.invoiceId = inv.invoiceId) := by
  constructor
  · intro m hm
    unfold reconcileInvoice at hm
    by_cases h : matchingDeliveries deliveries rules inv = []
    · rw [if_pos h] at hm
      cases hm
    · rw [if_neg h] at hm
      by_cases hv : variance deliveries rules inv ≤ tolerancePercent rules
      · rw [if_pos hv] at hm
        cases hm
        rfl
      · rw [if_neg hv] at hm
        cases hm
  · intro e he
    unfold reconcileInvoice at he
    by_cases h : matchingDeliveries deliveries rules inv = []
    · rw [if_pos h] at he
      cases he
      rfl
    · rw [if_neg h] at he
      by_cases hv : variance deliveries rules inv ≤ tolerancePercent rules
      · rw [if_pos hv] at he
        cases he
      · rw [if_neg hv] at he
        cases he
        rfl

theorem countMatchedId_append (l : List MatchRecord) (m : MatchRecord)
    (s : String) :
    countMatchedId (l ++ [m]) s =
      countMatchedId l s + (if m.invoiceId == s then 1 else 0) := by
  unfold countMatchedId
  rw [List.filter_append]
  by_cases h : m.invoiceId = s
  · simp [h]
  · simp [List.filter_cons, h]

theorem countExceptionId_append (l : List ExceptionRecord)
    (e : ExceptionRecord) (s : String) :
    countExceptionId (l ++ [e]) s =
      countExceptionId l s + (if e.invoiceId == s then 1 else 0) := by
  unfold countExceptionId
  rw [List.filter_append]
  by_cases h : e.invoiceId = s
  · simp [h]
  · simp [List.filter_cons, h]

theorem reconFold_counts (deliveries : List Delivery)
    (rules : List ReconciliationRule) (invoices : List Invoice) :
    ∀ acc : List MatchRecord × List ExceptionRecord,
      (invoices.foldl (reconStep deliveries rules) acc).1.length +
          (invoices.foldl (reconStep deliveries rules) acc).2.length =
        acc.1.length + acc.2.length + invoices.length ∧
      ∀ s, countMatchedId
             (invoices.foldl (reconStep deliveries rules) acc).1 s +
           countExceptionId
             (invoices.foldl (reconStep deliveries rules) acc).2 s =
         countMatchedId acc.1 s + countExceptionId acc.2 s +
           countInvoiceId invoices s := by
  induction invoices with
  | nil =>
      intro acc
      exact ⟨by simp, fun s => by simp [countInvoiceId]⟩
  | cons inv rest ih =>
      intro acc
      simp only [List.foldl_cons]
      obtain ⟨ihlen, ihcount⟩ := ih (reconStep deliveries rules acc inv)
      have hid := reconcileInvoice_invoiceId deliveries rules inv
      constructor
      · rw [ihlen]
        unfold reconStep
        rcases hres : reconcileInvoice deliveries rules inv with m | e <;>
          simp [hres, List.length_cons] <;> omega
      · intro s
        rw [ihcount s]
        have hcinv : countInvoiceId (inv :: rest) s =
            (if inv.invoiceId == s then 1 else 0) + countInvoiceId rest s := by
          unfold countInvoiceId
          rw [List.filter_cons]
          by_cases h : inv.invoiceId = s
          · simp [h, Nat.add_comm]
          · simp [h]
        rw [hcinv]
        unfold reconStep
        rcases hres : reconcileInvoice deliveries rules inv with m | e
        · have hm := hid.1 m hres
          simp only [hres]
          rw [countMatchedId_append, hm]
          omega
        · have he := hid.2 e hres
          simp only [hres]
          rw [countExceptionId_append, he]
          omega

/-- C10: the reconciliation run partitions its input — each input
invoice contributes exactly one record, to the matched list or to the
exceptions list, so `totalInvoices = matchedInvoices +
exceptionalInvoices` (counted per invoice id as well), and the match
rate of an empty run is 0 rather than a division by zero. -/
theorem reconciliation_partition (invoices : List Invoice)
    (deliveries : List Delivery) (rules : List ReconciliationRule) :
    (performReconciliation invoices deliveries rules).summary.totalInvoices =
      (performReconciliation invoices deliveries
          rules).summary.matchedInvoices +
        (performReconciliation invoices deliveries
          rules).summary.exceptionalInvoices ∧
    (∀ s, countMatchedId
        (performReconciliation invoices deliveries rules).matched s +
      countExceptionId
        (performReconciliation invoices deliveries rules).exceptions s =
      countInvoiceId invoices s) ∧
    (invoices = [] →
      (performReconciliation invoices deliveries rules).summary.matchRate
        = 0) := by
  obtain ⟨hlen, hcount⟩ :=
    reconFold_counts deliveries rules invoices ([], [])
  refine ⟨?_, ?_, ?_⟩
  · have hlen2 :
        (invoices.foldl (reconStep deliveries rules) ([], [])).1.length +
          (invoices.foldl (reconStep deliveries rules) ([], [])).2.length
          = invoices.length := by
      simpa using hlen
    show invoices.length =
      (invoices.foldl (reconStep deliveries rules) ([], [])).1.length +
        (invoices.foldl (reconStep deliveries rules) ([], [])).2.length
    omega
  · intro s
    have h2 :
        countMatchedId
          (invoices.foldl (reconStep deliveries rules) ([], [])).1 s +
        countExceptionId
          (invoices.foldl (reconStep deliveries rules) ([], [])).2 s =
          countInvoiceId invoices s := by
      have h3 := hcount s
      have hz1 : countMatchedId ([] : List MatchRecord) s = 0 := rfl
      have hz2 : countExceptionId ([] : List ExceptionRecord) s = 0 := rfl
      simpa [hz1, hz2] using h3
    exact h2
  · intro h
    subst h
    rfl

theorem reconciliation_partition_witness :
    (performReconciliation [] [] getDefaultRules).summary.totalInvoices =
      (performReconciliation [] []
          getDefaultRules).summary.matchedInvoices +
        (performReconciliation [] []
          getDefaultRules).summary.exceptionalInvoices ∧
    (∀ s, countMatchedId
        (performReconciliation [] [] getDefaultRules).matched s +
      countExceptionId
        (performReconciliation [] [] getDefaultRules).exceptions s =
      countInvoiceId [] s) ∧
    ([] = ([] : List Invoice) →
      (performReconciliation [] [] getDefaultRules).summary.matchRate
        = 0) :=
  reconciliation_partition [] [] getDefaultRules

structure AuditEvent where
  action : String
  entityType : String
  entityId : String
  newValues : String
  timestamp : ℚ
deriving DecidableEq

structure Dispute where
  disputeId : String
  invoiceId : String
  contractId : String
  raisedById : String
  receivedById : String
  reasonCode : String
  description : String
  status : String
  slaDeadline : ℚ
deriving DecidableEq

/-- Modelled from the spec: the `db.dispute.create` call of the route
does not set `status`; the Prisma schema supplying the column default is
not part of the source tree. The spec's dispute status machine starts at
`OPEN` (and the import route maps a missing status to `OPEN`), so the
default is modelled as `OPEN`. -/
def defaultDisputeStatus : String := "OPEN"

/-- The slice of the Ledger Store the reconciliation apply step touches,
with `now` the clock value (epoch milliseconds) of the run. -/
structure LedgerState where
  invoices : List Invoice
  disputes : List Dispute
  auditLog : List AuditEvent
  now : ℚ
deriving DecidableEq

/-- One iteration of the matched-invoice loop of
`updateInvoiceStatuses`: `updateMany` on the business key. -/
def applyMatch (db : LedgerState) (m : MatchRecord) : LedgerState :=
  { db with invoices := db.invoices.map fun inv =>
      if inv.invoiceId = m.invoiceId then
        { inv with status := "MATCHED"
                   confidenceScore := some m.confidenceScore
                   matchedDeliveries := some m.deliveryIds }
      else inv }

def findUniqueInvoice (db : LedgerState) (invoiceId : String) :
    Option Invoice :=
  db.invoices.find? fun inv => inv.invoiceId == invoiceId

def setPartiallyMatched (sid : String) (inv : Invoice) : Invoice :=
  if inv.invoiceId = sid then { inv with status := "PARTIALLY_MATCHED" }
  else inv

/-- One iteration of the exception loop of `updateInvoiceStatuses`:
status update to `PARTIALLY_MATCHED`, then for a HIGH-severity
exception a dispute is created against the invoice found by its
business key. -/
def applyException (db : LedgerState) (e : ExceptionRecord) :
    LedgerState :=
  let db1 :=
    { db with invoices :=
        db.invoices.map (setPartiallyMatched e.invoiceId) }
  if e.severity = "HIGH" then
    match findUniqueInvoice db1 e.invoiceId with
    | some inv =>
        { db1 with disputes := db1.disputes ++
            [{ disputeId := "DSP-" ++ toString db1.now
               invoiceId := inv.id
               contractId := inv.contractId
               raisedById := inv.counterpartyId
               receivedById := inv.issuerId
               reasonCode := "QUANTITY_VARIANCE"
               description := e.recommendation
               status := defaultDisputeStatus
               slaDeadline := db1.now + 7 * 24 * 60 * 60 * 1000 }] }
    | none => db1
  else db1

def updateInvoiceStatuses (matched : List MatchRecord)
    (exceptions : List ExceptionRecord) (db : LedgerState) : LedgerState :=
  exceptions.foldl applyException (matched.foldl applyMatch db)

/-- The fields of an invoice that no apply step rewrites. -/
def invoiceKey (inv : Invoice) :
    String × String × String × String × String :=
  (inv.invoiceId, inv.id, inv.contractId, inv.issuerId,
    inv.counterpartyId)

theorem invoiceKey_map_update (l : List Invoice) (g : Invoice → Invoice)
    (hg : ∀ inv, invoiceKey (g inv) = invoiceKey inv) :
    (l.map g).map invoiceKey = l.map invoiceKey := by
  induction l with
  | nil => rfl
  | cons a rest ih => simp [hg a, ih]

theorem applyMatch_keys (db : LedgerState) (m : MatchRecord) :
    (applyMatch db m).invoices.map invoiceKey =
      db.invoices.map invoiceKey := by
  apply invoiceKey_map_update
  intro inv
  by_cases h : inv.invoiceId = m.invoiceId
  · simp [invoiceKey, h]
  · simp [invoiceKey, h]

theorem applyException_invoices (db : LedgerState) (e : ExceptionRecord) :
    (applyException db e).invoices =
      db.invoices.map (setPartiallyMatched e.invoiceId) := by
  unfold applyException
  by_cases h : e.severity = "HIGH"
  · rw [if_pos h]
    rcases hf : findUniqueInvoice
        { db with invoices :=
            db.invoices.map (setPartiallyMatched e.invoiceId) }
        e.invoiceId with _ | inv
    · rfl
    · rfl
  · rw [if_neg h]

theorem applyException_keys (db : LedgerState) (e : ExceptionRecord) :
    (applyException db e).invoices.map invoiceKey =
      db.invoices.map invoiceKey := by
  rw [applyException_invoices]
  apply invoiceKey_map_update
  intro inv
  unfold setPartiallyMatched
  by_cases h : inv.invoiceId = e.invoiceId
  · simp [invoiceKey, h]
  · simp [invoiceKey, h]

theorem applyException_now (db : LedgerState) (e : ExceptionRecord) :
    (applyException db e).now = db.now := by
  unfold applyException
  by_cases h : e.severity = "HIGH"
  · rw [if_pos h]
    rcases hf : findUniqueInvoice
        { db with invoices :=
            db.invoices.map (setPartiallyMatched e.invoiceId) }
        e.invoiceId with _ | inv
    · rfl
    · rfl
  · rw [if_neg h]

theorem applyException_auditLog (db : LedgerState) (e : ExceptionRecord) :
    (applyException db e).auditLog = db.auditLog := by
  unfold applyException
  by_cases h : e.severity = "HIGH"
  · rw [if_pos h]
    rcases hf : findUniqueInvoice
        { db with invoices :=
            db.invoices.map (setPartiallyMatched e.invoiceId) }
        e.invoiceId with _ | inv
    · rfl
    · rfl
  · rw [if_neg h]

theorem applyException_disputes_mono (db : LedgerState)
    (e : ExceptionRecord) (d : Dispute) (hd : d ∈ db.disputes) :
    d ∈ (applyException db e).disputes := by
  unfold applyException
  by_cases h : e.severity = "HIGH"
  · rw [if_pos h]
    rcases hf : findUniqueInvoice
        { db with invoices :=
            db.invoices.map (setPartiallyMatched e.invoiceId) }
        e.invoiceId with _ | inv
    · exact hd
    · exact List.mem_append_left _ hd
  · rw [if_neg h]; exact hd

theorem foldl_applyException_keys (l : List ExceptionRecord) :
    ∀ db : LedgerState,
      (l.foldl applyException db).invoices.map invoiceKey =
        db.invoices.map invoiceKey ∧
      (l.foldl applyException db).now = db.now ∧
      (l.foldl applyException db).auditLog = db.auditLog := by
  induction l with
  | nil => intro db; exact ⟨rfl, rfl, rfl⟩
  | cons e rest ih =>
      intro db
      simp only [List.foldl_cons]
      obtain ⟨h1, h2, h3⟩ := ih (applyException db e)
      exact ⟨h1.trans (applyException_keys db e),
        h2.trans (applyException_now db e),
        h3.trans (applyException_auditLog db e)⟩

theorem foldl_applyMatch_keys (l : List MatchRecord) :
    ∀ db : LedgerState,
      (l.foldl applyMatch db).invoices.map invoiceKey =
        db.invoices.map invoiceKey ∧
      (l.foldl applyMatch db).now = db.now ∧
      (l.foldl applyMatch db).auditLog = db.auditLog ∧
      (l.foldl applyMatch db).disputes = db.disputes := by
  induction l with
  | nil => intro db; exact ⟨rfl, rfl, rfl, rfl⟩
  | cons m rest ih =>
      intro db
      simp only [List.foldl_cons]
      obtain ⟨h1, h2, h3, h4⟩ := ih (applyMatch db m)
      exact ⟨h1.trans (applyMatch_keys db m), h2, h3, h4⟩

theorem foldl_applyException_disputes_mono (l : List ExceptionRecord) :
    ∀ (db : LedgerState) (d : Dispute), d ∈ db.disputes →
      d ∈ (l.foldl applyException db).disputes := by
  induction l with
  | nil => intro db d hd; exact hd
  | cons e rest ih =>
      intro db d hd
      simp only [List.foldl_cons]
      exact ih _ d (applyException_disputes_mono db e d hd)

theorem setPartiallyMatched_key (sid : String) (inv : Invoice) :
    invoiceKey (setPartiallyMatched sid inv) = invoiceKey inv := by
  unfold setPartiallyMatched
  by_cases h : inv.invoiceId = sid
  · simp [invoiceKey, h]
  · simp [invoiceKey, h]

theorem find?_invoiceKey_eq (l1 : List Invoice) :
    ∀ l2 : List Invoice, l1.map invoiceKey = l2.map invoiceKey →
      ∀ s, Option.map invoiceKey (l1.find? fun i => i.invoiceId == s) =
        Option.map invoiceKey (l2.find? fun i => i.invoiceId == s) := by
  induction l1 with
  | nil =>
      intro l2 h s
      cases l2 with
      | nil => rfl
      | cons b bs => simp at h
  | cons a as ih =>
      intro l2 h s
      cases l2 with
      | nil => simp at h
      | cons b bs =>
          simp only [List.map_cons, List.cons.injEq] at h
          obtain ⟨hk, ht⟩ := h
          have hinv : a.invoiceId = b.invoiceId := by
            have h1 := congrArg (fun t => t.1) hk
            simpa [invoiceKey] using h1
          by_cases hs : a.invoiceId = s
          · rw [List.find?_cons_of_pos _ (by simp [hs]),
              List.find?_cons_of_pos _ (by simp [← hinv, hs])]
            simp [hk]
          · rw [List.find?_cons_of_neg _ (by simp [hs]),
              List.find?_cons_of_neg _ (by simp [← hinv, hs])]
            exact ih bs ht s

theorem applyException_sets_status (db : LedgerState)
    (e : ExceptionRecord) :
    ∀ inv ∈ (applyException db e).invoices,
      inv.invoiceId = e.invoiceId → inv.status = "PARTIALLY_MATCHED" := by
  rw [applyException_invoices]
  intro inv hinv hid
  obtain ⟨inv0, hmem, hmap⟩ := List.mem_map.mp hinv
  subst hmap
  unfold setPartiallyMatched at *
  by_cases h : inv0.invoiceId = e.invoiceId
  · simp [h]
  · rw [if_neg h] at hid ⊢
    exact absurd hid h

theorem applyException_preserves_status (db : LedgerState)
    (e : ExceptionRecord) (sid : String)
    (h : ∀ inv ∈ db.invoices, inv.invoiceId = sid →
      inv.status = "PARTIALLY_MATCHED") :
    ∀ inv ∈ (applyException db e).invoices,
      inv.invoiceId = sid → inv.status = "PARTIALLY_MATCHED" := by
  rw [applyException_invoices]
  intro inv hinv hid
  obtain ⟨inv0, hmem, hmap⟩ := List.mem_map.mp hinv
  subst hmap
  unfold setPartiallyMatched at *
  by_cases hb : inv0.invoiceId = e.invoiceId
  · simp [hb]
  · rw [if_neg hb] at hid ⊢
    exact h inv0 hmem hid

theorem foldl_applyException_preserves_status
    (l : List ExceptionRecord) :
    ∀ (db : LedgerState) (sid : String),
      (∀ inv ∈ db.invoices, inv.invoiceId = sid →
        inv.status = "PARTIALLY_MATCHED") →
      ∀ inv ∈ (l.foldl applyException db).invoices,
        inv.invoiceId = sid → inv.status = "PARTIALLY_MATCHED" := by
  induction l with
  | nil => intro db sid h; exact h
  | cons e rest ih =>
      intro db sid h
      simp only [List.foldl_cons]
      exact ih _ sid (applyException_preserves_status db e sid h)

theorem applyException_creates_dispute (db : LedgerState)
    (e : ExceptionRecord) (hsev : e.severity = "HIGH") (inv : Invoice)
    (hfind : findUniqueInvoice
      { db with invoices :=
          db.invoices.map (setPartiallyMatched e.invoiceId) }
      e.invoiceId = some inv) :
    ∃ dsp ∈ (applyException db e).disputes,
      dsp.reasonCode = "QUANTITY_VARIANCE" ∧ dsp.status = "OPEN" ∧
      dsp.raisedById = inv.counterpartyId ∧
      dsp.receivedById = inv.issuerId ∧
      dsp.slaDeadline = db.now + 7 * 24 * 60 * 60 * 1000 ∧
      dsp.description = e.recommendation := by
  unfold applyException
  rw [if_pos hsev, hfind]
  refine ⟨_, List.mem_append_right _ (List.mem_singleton_self _), rfl,
    rfl, rfl, rfl, rfl, rfl⟩

/-- C7: applying reconciliation results sets every exception invoice's
status to `PARTIALLY_MATCHED`, and for a HIGH-severity exception whose
invoice is stored, additionally records a dispute with reason
`QUANTITY_VARIANCE`, status `OPEN`, raised by the invoice's
counterparty against its issuer, SLA deadline now + 7 days, and the
exception's recommendation text as description. -/
theorem exception_apply_effects (matched : List MatchRecord)
    (exceptions : List ExceptionRecord) (db : LedgerState)
    (e : ExceptionRecord) (he : e ∈ exceptions) :
    (∀ inv ∈ (updateInvoiceStatuses matched exceptions db).invoices,
        inv.invoiceId = e.invoiceId →
        inv.status = "PARTIALLY_MATCHED") ∧
    (e.severity = "HIGH" →
      ∀ inv, findUniqueInvoice db e.invoiceId = some inv →
        ∃ dsp ∈ (updateInvoiceStatuses matched exceptions db).disputes,
          dsp.reasonCode = "QUANTITY_VARIANCE" ∧ dsp.status = "OPEN" ∧
          dsp.raisedById = inv.counterpartyId ∧
          dsp.receivedById = inv.issuerId ∧
          dsp.slaDeadline = db.now + 7 * 24 * 60 * 60 * 1000 ∧
          dsp.description = e.recommendation) := by
  obtain ⟨l1, l2, rfl⟩ := List.append_of_mem he
  have hfold : updateInvoiceStatuses matched (l1 ++ e :: l2) db =
      l2.foldl applyException
        (applyException (l1.foldl applyException
          (matched.foldl applyMatch db)) e) := by
    unfold updateInvoiceStatuses
    rw [List.foldl_append, List.foldl_cons]
  constructor
  · rw [hfold]
    exact foldl_applyException_preserves_status l2 _ _
      (applyException_sets_status _ e)
  · intro hsev inv hfind
    have hkM := (foldl_applyMatch_keys matched db).1
    have hkA := (foldl_applyException_keys l1
      (matched.foldl applyMatch db)).1
    have hnowM := (foldl_applyMatch_keys matched db).2.1
    have hnowA := (foldl_applyException_keys l1
      (matched.foldl applyMatch db)).2.1
    have hkeys : ((l1.foldl applyException
          (matched.foldl applyMatch db)).invoices.map
            (setPartiallyMatched e.invoiceId)).map invoiceKey =
        db.invoices.map invoiceKey := by
      rw [invoiceKey_map_update _ _ (setPartiallyMatched_key e.invoiceId),
        hkA, hkM]
    have hfind2 := find?_invoiceKey_eq _ _ hkeys e.invoiceId
    rw [findUniqueInvoice] at hfind
    rcases hf1 : ((l1.foldl applyException
        (matched.foldl applyMatch db)).invoices.map
          (setPartiallyMatched e.invoiceId)).find?
        (fun i => i.invoiceId == e.invoiceId) with _ | inv1
    · rw [hf1, hfind] at hfind2
      cases hfind2
    · rw [hf1, hfind] at hfind2
      have hkinv : invoiceKey inv1 = invoiceKey inv :=
        Option.some.inj hfind2
      have hcp : inv1.counterpartyId = inv.counterpartyId := by
        have h1 := congrArg (fun t => t.2.2.2.2) hkinv
        simpa [invoiceKey] using h1
      have hiss : inv1.issuerId = inv.issuerId := by
        have h1 := congrArg (fun t => t.2.2.2.1) hkinv
        simpa [invoiceKey] using h1
      obtain ⟨dsp, hdmem, hp1, hp2, hp3, hp4, hp5, hp6⟩ :=
        applyException_creates_dispute
          (l1.foldl applyException (matched.foldl applyMatch db)) e hsev
          inv1 (by rw [findUniqueInvoice]; exact hf1)
      rw [hfold]
      refine ⟨dsp, foldl_applyException_disputes_mono l2 _ dsp hdmem,
        hp1, hp2, ?_, ?_, ?_, hp6⟩
      · rw [hp3, hcp]
      · rw [hp4, hiss]
      · rw [hp5, hnowA, hnowM]

def w7Invoice : Invoice :=
  { invoiceId := "INV-7", id := "id7", contractId := "CT1"
    issuerId := "P1", counterpartyId := "P2"
    periodStart := 0, periodEnd := 0, totalAmount := 100
    lineItems := some { energy := 1000, gas := 0, fuel := 0 }
    status := "PENDING", confidenceScore := none
    matchedDeliveries := none }

def w7Exception : ExceptionRecord :=
  { invoiceId := "INV-7", reason := "QUANTITY_VARIANCE"
    severity := "HIGH", recommendation := recommendationText 30 }

def w7Db : LedgerState :=
  { invoices := [w7Invoice], disputes := [], auditLog := [], now := 0 }

theorem exception_apply_effects_witness :
    (∀ inv ∈ (updateInvoiceStatuses [] [w7Exception] w7Db).invoices,
        inv.invoiceId = w7Exception.invoiceId →
        inv.status = "PARTIALLY_MATCHED") ∧
    (w7Exception.severity = "HIGH" →
      ∀ inv, findUniqueInvoice w7Db w7Exception.invoiceId = some inv →
        ∃ dsp ∈ (updateInvoiceStatuses [] [w7Exception] w7Db).disputes,
          dsp.reasonCode = "QUANTITY_VARIANCE" ∧ dsp.status = "OPEN" ∧
          dsp.raisedById = inv.counterpartyId ∧
          dsp.receivedById = inv.issuerId ∧
          dsp.slaDeadline = w7Db.now + 7 * 24 * 60 * 60 * 1000 ∧
          dsp.description = w7Exception.recommendation) :=
  exception_apply_effects [] [w7Exception] w7Db w7Exception
    (List.mem_singleton_self _)

end Reconciliation

namespace Treasury

structure User where
  id : String
  role : String
deriving DecidableEq

structure SettlementBatch where
  batchId : String
  period : String
  totalNetAmount : ℚ
  status : String
  executedAt : Option ℚ
deriving DecidableEq

structure Approval where
  batchId : String
  userId : String
  userName : String
  role : String
  signature : String
deriving DecidableEq

structure Payment where
  paymentId : String
  payerId : String
  payeeId : String
  amount : ℚ
  currency : String
  status : String
  settlementBatchId : String
deriving DecidableEq

structure EscrowReservation where
  reference : String
  amount : ℚ
deriving DecidableEq

/-- The state the treasury route operates on. The invoices drive the
Netting Engine (spec section 4.3: the Settlement Orchestrator obtains
the settlement legs from the Netting Engine; the route's local
`calculateNetPositions` / `generateSettlementLegs` helpers are unfilled
stubs, so the netting route's implementations are wired in). The escrow
fields model the external Escrow/Funds collaborator. -/
structure TreasuryState where
  users : List User
  batches : List SettlementBatch
  approvals : List Approval
  payments : List Payment
  invoices : List Netting.Invoice
  escrowAvailable : ℚ
  reservations : List EscrowReservation
  auditLog : List Reconciliation.AuditEvent
  now : ℚ
deriving DecidableEq

def findUser (st : TreasuryState) (userId : String) : Option User :=
  st.users.find? fun u => u.id == userId

def findBatch (st : TreasuryState) (batchId : String) :
    Option SettlementBatch :=
  st.batches.find? fun b => b.batchId == batchId

/-- Modelled from the spec: the source stubs `checkExistingApproval`
("would query database in production"); per spec section 4.3 an
approval is recorded with the approver's identity, and a duplicate
approval from the same approver is rejected. -/
def checkExistingApproval (st : TreasuryState)
    (batchId userId : String) : Bool :=
  st.approvals.any fun a => a.batchId == batchId && a.userId == userId

/-- Modelled from the spec: the source stubs `recordApproval`; the
approval is persisted with approver identity and role. -/
def recordApproval (st : TreasuryState)
    (batchId userId userName role signature : String) : TreasuryState :=
  { st with approvals := st.approvals ++
      [{ batchId := batchId, userId := userId, userName := userName
         role := role, signature := signature }] }

/-- Modelled from the spec: the source stubs `getApprovals`; it returns
the recorded approvals of the batch. -/
def getApprovals (st : TreasuryState) (batchId : String) :
    List Approval :=
  st.approvals.filter fun a => a.batchId == batchId

/-- `const totalRequiredApprovers = 3 // MoE, MoF, CAGD` -/
def totalRequiredApprovers : ℕ := 3

def setBatchStatus (st : TreasuryState) (batchId status : String) :
    TreasuryState :=
  { st with batches := st.batches.map fun b =>
      if b.batchId = batchId then { b with status := status } else b }

structure ApproveRequest where
  batchId : String
  userId : String
  userName : String
  role : String
  signature : String
deriving DecidableEq

inductive ApproveOutcome
  | insufficientAuthority
  | alreadyApproved
  | ok (quorumReached : Bool)
deriving DecidableEq

/-- The `APPROVE_SETTLEMENT` action of the treasury route: authority
check, duplicate-approval rejection, approval recording, and the
fixed-count quorum check (`approvals.length >= totalRequiredApprovers`)
that flips the batch to `APPROVED`. -/
def approveSettlement (st : TreasuryState) (req : ApproveRequest) :
    ApproveOutcome × TreasuryState :=
  match findUser st req.userId with
  | none => (ApproveOutcome.insufficientAuthority, st)
  | some user =>
      if user.role ≠ "TREASURY" ∧ user.role ≠ "MINISTER" then
        (ApproveOutcome.insufficientAuthority, st)
      else if checkExistingApproval st req.batchId req.userId then
        (ApproveOutcome.alreadyApproved, st)
      else
        let st1 := recordApproval st req.batchId req.userId req.userName
          req.role req.signature
        let quorumReached :=
          totalRequiredApprovers ≤ (getApprovals st1 req.batchId).length
        if quorumReached then
          (ApproveOutcome.ok true,
            setBatchStatus st1 req.batchId "APPROVED")
        else
          (ApproveOutcome.ok false, st1)

/-- Modelled from the spec: the source stubs `reserveFunds`; spec
section 6 gives `Reserve(amount, currency, reference, ttl)` on the
escrow collaborator, failing exactly on insufficient available
balance (section 7, resource exhaustion). -/
def reserveFunds (st : TreasuryState) (amount : ℚ) (reference : String) :
    Bool × TreasuryState :=
  if amount ≤ st.escrowAvailable then
    (true,
      { st with escrowAvailable := st.escrowAvailable - amount
                reservations := st.reservations ++
                  [{ reference := reference, amount := amount }] })
  else (false, st)

/-- Modelled from the spec: releasing a reservation returns its amount
to the available balance. -/
def releaseFunds (st : TreasuryState) (reference : String) :
    TreasuryState :=
  { st with
    escrowAvailable := st.escrowAvailable +
      ((st.reservations.filter fun r => r.reference == reference).map
        (fun r => r.amount)).sum
    reservations :=
      st.reservations.filter fun r => !(r.reference == reference) }

/-- Modelled from the spec: the source stubs `executeSettlementLeg`;
spec section 4.3 step 2: each leg's transfer creates a `COMPLETED`
Payment record linking payer to payee, tagged with the batch id. -/
def executeSettlementLeg (st : TreasuryState) (batchId : String)
    (leg : Netting.SettlementLeg) : TreasuryState :=
  { st with payments := st.payments ++
      [{ paymentId := "PAY_SETT_" ++ toString st.now
         payerId := leg.payerId, payeeId := leg.payeeId
         amount := leg.amount, currency := leg.currency
         status := "COMPLETED", settlementBatchId := batchId }] }

def setBatchExecuted (st : TreasuryState) (batchId : String) :
    TreasuryState :=
  { st with batches := st.batches.map fun b =>
      if b.batchId = batchId then
        { b with status := "EXECUTED", executedAt := some st.now }
      else b }

inductive ExecuteOutcome
  | notApproved
  | insufficientEscrowFunds
  | executed (legs : ℕ)
deriving DecidableEq

/-- The `EXECUTE_SETTLEMENT` action of the treasury route: the
`APPROVED`-status guard, escrow reservation for the total leg amount
(aborting on failure), leg execution, the `EXECUTED` status update and
the reservation release. -/
def executeSettlement (st : TreasuryState) (batchId : String) :
    ExecuteOutcome × TreasuryState :=
  match findBatch st batchId with
  | none => (ExecuteOutcome.notApproved, st)
  | some batch =>
      if batch.status ≠ "APPROVED" then (ExecuteOutcome.notApproved, st)
      else
        let settlementLegs := Netting.generateSettlementLegs
          (Netting.calculateNettingPositions st.invoices)
        let totalAmount := Netting.legsSum settlementLegs
        let r := reserveFunds st totalAmount ("SETTLEMENT-" ++ batchId)
        if r.1 then
          let st2 := settlementLegs.foldl
            (fun s leg => executeSettlementLeg s batchId leg) r.2
          let st3 := setBatchExecuted st2 batchId
          let st4 := releaseFunds st3 ("SETTLEMENT-" ++ batchId)
          (ExecuteOutcome.executed settlementLegs.length, st4)
        else
          (ExecuteOutcome.insufficientEscrowFunds, r.2)

theorem approveSettlement_eq_of_findUser (st : TreasuryState)
    (req : ApproveRequest) (user : User)
    (hu : findUser st req.userId = some user) :
    approveSettlement st req =
      (if user.role ≠ "TREASURY" ∧ user.role ≠ "MINISTER" then
        (ApproveOutcome.insufficientAuthority, st)
      else if checkExistingApproval st req.batchId req.userId then
        (ApproveOutcome.alreadyApproved, st)
      else
        let st1 := recordApproval st req.batchId req.userId req.userName
          req.role req.signature
        if totalRequiredApprovers ≤ (getApprovals st1 req.batchId).length
        then
          (ApproveOutcome.ok true,
            setBatchStatus st1 req.batchId "APPROVED")
        else (ApproveOutcome.ok false, st1)) := by
  unfold approveSettlement
  rw [hu]

theorem getApprovals_record (st : TreasuryState)
    (b u n r s : String) :
    getApprovals (recordApproval st b u n r s) b =
      getApprovals st b ++
        [{ batchId := b, userId := u, userName := n, role := r
           signature := s }] := by
  unfold getApprovals recordApproval
  rw [List.filter_append]
  simp

theorem getApprovals_setBatchStatus (st : TreasuryState)
    (b s bid : String) :
    getApprovals (setBatchStatus st b s) bid = getApprovals st bid := rfl

theorem recordApproval_batches (st : TreasuryState)
    (b u n r s : String) :
    (recordApproval st b u n r s).batches = st.batches := rfl

theorem checkExistingApproval_false_userId (st : TreasuryState)
    (b u : String)
    (hchk : checkExistingApproval st b u = false) :
    ∀ a ∈ getApprovals st b, a.userId ≠ u := by
  intro a ha
  unfold getApprovals at ha
  rw [List.mem_filter] at ha
  unfold checkExistingApproval at hchk
  rw [List.any_eq_false] at hchk
  have h1 := hchk a ha.1
  intro heq
  rw [ha.2, heq] at h1
  simp at h1

/-- C3: settlement-batch approval. Quorum is the fixed count
`totalRequiredApprovers = 3` (independent of how many participants or
users exist); a duplicate approval from an approver who has already
approved is rejected with no state change; below three recorded
approvals the batch list (hence a `COMPUTED` status) is unchanged; the
batch flips to `APPROVED` exactly when the third distinct approval is
recorded; and recording preserves distinctness of the approver set. -/
theorem approval_quorum (st : TreasuryState) (req : ApproveRequest)
    (user : User)
    (hu : findUser st req.userId = some user)
    (hrole : user.role = "TREASURY" ∨ user.role = "MINISTER") :
    totalRequiredApprovers = 3 ∧
    (checkExistingApproval st req.batchId req.userId = true →
      approveSettlement st req = (ApproveOutcome.alreadyApproved, st)) ∧
    (checkExistingApproval st req.batchId req.userId = false →
      (getApprovals st req.batchId).length + 1 < 3 →
      (approveSettlement st req).2.batches = st.batches) ∧
    (checkExistingApproval st req.batchId req.userId = false →
      3 ≤ (getApprovals st req.batchId).length + 1 →
      ∀ b ∈ (approveSettlement st req).2.batches,
        b.batchId = req.batchId → b.status = "APPROVED") ∧
    (checkExistingApproval st req.batchId req.userId = false →
      ((getApprovals st req.batchId).map (fun a => a.userId)).Nodup →
      ((getApprovals (approveSettlement st req).2 req.batchId).map
        (fun a => a.userId)).Nodup) := by
  have hgood : ¬ (user.role ≠ "TREASURY" ∧ user.role ≠ "MINISTER") := by
    rcases hrole with h | h <;> simp [h]
  have heq := approveSettlement_eq_of_findUser st req user hu
  refine ⟨rfl, ?_, ?_, ?_, ?_⟩
  · intro hdup
    rw [heq, if_neg hgood, if_pos hdup]
  · intro hchk hlt
    rw [heq, if_neg hgood, if_neg (by rw [hchk]; simp)]
    have hlen : (getApprovals (recordApproval st req.batchId req.userId
        req.userName req.role req.signature) req.batchId).length =
        (getApprovals st req.batchId).length + 1 := by
      rw [getApprovals_record, List.length_append]
      rfl
    rw [if_neg (by rw [hlen]; unfold totalRequiredApprovers; omega)]
    rfl
  · intro hchk hge
    rw [heq, if_neg hgood, if_neg (by rw [hchk]; simp)]
    have hlen : (getApprovals (recordApproval st req.batchId req.userId
        req.userName req.role req.signature) req.batchId).length =
        (getApprovals st req.batchId).length + 1 := by
      rw [getApprovals_record, List.length_append]
      rfl
    rw [if_pos (by rw [hlen]; unfold totalRequiredApprovers; omega)]
    intro b hb hbid
    simp only [setBatchStatus] at hb
    obtain ⟨b0, hb0mem, hb0⟩ := List.mem_map.mp hb
    by_cases h0 : b0.batchId = req.batchId
    · rw [if_pos h0] at hb0
      rw [← hb0]
    · rw [if_neg h0] at hb0
      subst hb0
      exact absurd hbid h0
  · intro hchk hnd
    have hids := checkExistingApproval_false_userId st req.batchId
      req.userId hchk
    rw [heq, if_neg hgood, if_neg (by rw [hchk]; simp)]
    have hafter : ∀ st2 : TreasuryState,
        getApprovals st2 req.batchId =
          getApprovals st req.batchId ++
            [{ batchId := req.batchId, userId := req.userId
               userName := req.userName, role := req.role
               signature := req.signature }] →
        ((getApprovals st2 req.batchId).map (fun a => a.userId)).Nodup := by
      intro st2 h2
      rw [h2, List.map_append]
      rw [List.nodup_append]
      refine ⟨hnd, by simp, ?_⟩
      intro x hx
      simp only [List.map_cons, List.map_nil, List.mem_singleton]
      obtain ⟨a, ha, hax⟩ := List.mem_map.mp hx
      intro hcontra
      exact hids a ha (by rw [hax, hcontra])
    by_cases hq : totalRequiredApprovers ≤
        (getApprovals (recordApproval st req.batchId req.userId
          req.userName req.role req.signature) req.batchId).length
    · rw [if_pos hq]
      exact hafter _ (by
        rw [getApprovals_setBatchStatus, getApprovals_record])
    · rw [if_neg hq]
      exact hafter _ (getApprovals_record st req.batchId req.userId
        req.userName req.role req.signature)

def w3User : User := { id := "U3", role := "TREASURY" }

def w3State : TreasuryState :=
  { users := [w3User]
    batches := [{ batchId := "SB-1", period := "2025-01"
                  totalNetAmount := 100, status := "COMPUTED"
                  executedAt := none }]
    approvals :=
      [{ batchId := "SB-1", userId := "U1", userName := "A"
         role := "MINISTER", signature := "s1" },
       { batchId := "SB-1", userId := "U2", userName := "B"
         role := "TREASURY", signature := "s2" }]
    payments := [], invoices := [], escrowAvailable := 0
    reservations := [], auditLog := [], now := 0 }

def w3Req : ApproveRequest :=
  { batchId := "SB-1", userId := "U3", userName := "C"
    role := "TREASURY", signature := "s3" }

theorem approval_quorum_witness :
    totalRequiredApprovers = 3 ∧
    (checkExistingApproval w3State w3Req.batchId w3Req.userId = true →
      approveSettlement w3State w3Req =
        (ApproveOutcome.alreadyApproved, w3State)) ∧
    (checkExistingApproval w3State w3Req.batchId w3Req.userId = false →
      (getApprovals w3State w3Req.batchId).length + 1 < 3 →
      (approveSettlement w3State w3Req).2.batches = w3State.batches) ∧
    (checkExistingApproval w3State w3Req.batchId w3Req.userId = false →
      3 ≤ (getApprovals w3State w3Req.batchId).length + 1 →
      ∀ b ∈ (approveSettlement w3State w3Req).2.batches,
        b.batchId = w3Req.batchId → b.status = "APPROVED") ∧
    (checkExistingApproval w3State w3Req.batchId w3Req.userId = false →
      ((getApprovals w3State w3Req.batchId).map
        (fun a => a.userId)).Nodup →
      ((getApprovals (approveSettlement w3State w3Req).2
        w3Req.batchId).map (fun a => a.userId)).Nodup) :=
  approval_quorum w3State w3Req w3User rfl (Or.inl rfl)

/-- C4: settlement execution is only permitted from `APPROVED`: when
the batch is absent or its status is anything else, `executeSettlement`
reports `notApproved` and leaves the state untouched — no batch is
moved to `EXECUTED` and no Payment record is created. -/
theorem execute_requires_approved (st : TreasuryState)
    (batchId : String)
    (h : ∀ b, findBatch st batchId = some b → b.status ≠ "APPROVED") :
    (executeSettlement st batchId).1 = ExecuteOutcome.notApproved ∧
    (executeSettlement st batchId).2 = st ∧
    (executeSettlement st batchId).2.payments = st.payments ∧
    (executeSettlement st batchId).2.batches = st.batches := by
  have hres : executeSettlement st batchId =
      (ExecuteOutcome.notApproved, st) := by
    unfold executeSettlement
    split
    · rfl
    · rename_i b2 heq
      rw [if_pos (h b2 heq)]
  rw [hres]
  exact ⟨rfl, rfl, rfl, rfl⟩

def w4Batch : SettlementBatch :=
  { batchId := "SB-2", period := "2025-02", totalNetAmount := 100
    status := "COMPUTED", executedAt := none }

def w4State : TreasuryState :=
  { users := [], batches := [w4Batch], approvals := [], payments := []
    invoices := [], escrowAvailable := 0, reservations := []
    auditLog := [], now := 0 }

theorem execute_requires_approved_witness :
    (executeSettlement w4State "SB-2").1 = ExecuteOutcome.notApproved ∧
    (executeSettlement w4State "SB-2").2 = w4State ∧
    (executeSettlement w4State "SB-2").2.payments = w4State.payments ∧
    (executeSettlement w4State "SB-2").2.batches = w4State.batches :=
  execute_requires_approved w4State "SB-2" (by
    intro b hb
    have hb2 : some w4Batch = some b := hb
    cases hb2
    decide)

/-- C8: execution first reserves the total leg amount in escrow; when
the reservation fails on insufficient available balance, execution
aborts reporting the failure with no state change: the batch stays as
it was (`APPROVED`) and zero Payment records are created. -/
theorem execute_reservation_failure (st : TreasuryState)
    (batchId : String) (batch : SettlementBatch)
    (hb : findBatch st batchId = some batch)
    (hst : batch.status = "APPROVED")
    (hfail : ¬ (Netting.legsSum (Netting.generateSettlementLegs
        (Netting.calculateNettingPositions st.invoices)) ≤
        st.escrowAvailable)) :
    (executeSettlement st batchId).1 =
      ExecuteOutcome.insufficientEscrowFunds ∧
    (executeSettlement st batchId).2 = st ∧
    (executeSettlement st batchId).2.payments = st.payments ∧
    (executeSettlement st batchId).2.batches = st.batches := by
  have hres : executeSettlement st batchId =
      (ExecuteOutcome.insufficientEscrowFunds, st) := by
    unfold executeSettlement
    split
    · rename_i heq
      rw [hb] at heq
      cases heq
    · rename_i b2 heq
      rw [hb] at heq
      injection heq with hb3
      subst hb3
      rw [if_neg (by rw [hst]; simp)]
      simp only [reserveFunds]
      rw [if_neg hfail]
      rfl
  rw [hres]
  exact ⟨rfl, rfl, rfl, rfl⟩

def w8Invoice : Netting.Invoice :=
  { issuer := { id := "P1", name := "VRA" }
    counterparty := { id := "P2", name := "ECG" }
    totalAmount := 100, payments := [] }

def w8Batch : SettlementBatch :=
  { batchId := "SB-3", period := "2025-01", totalNetAmount := 100
    status := "APPROVED", executedAt := none }

def w8State : TreasuryState :=
  { users := [], batches := [w8Batch], approvals := [], payments := []
    invoices := [w8Invoice], escrowAvailable := 50, reservations := []
    auditLog := [], now := 0 }

theorem execute_reservation_failure_witness :
    (executeSettlement w8State "SB-3").1 =
      ExecuteOutcome.insufficientEscrowFunds ∧
    (executeSettlement w8State "SB-3").2 = w8State ∧
    (executeSettlement w8State "SB-3").2.payments = w8State.payments ∧
    (executeSettlement w8State "SB-3").2.batches = w8State.batches :=
  execute_reservation_failure w8State "SB-3" w8Batch rfl rfl
    (by norm_num [Netting.legsSum, Netting.generateSettlementLegs,
      Netting.debtorsOf, Netting.creditorsOf, Netting.sortByLe,
      Netting.insertLe, Netting.settleLoop,
      Netting.calculateNettingPositions, Netting.processInvoice,
      Netting.updatePosition, Netting.totalPaid, Netting.emptyPosition,
      Netting.sumNet, w8State, w8Invoice, min_def, abs_of_neg,
      abs_of_nonneg])

end Treasury

namespace AuditTrail

def w9Invoice : Reconciliation.Invoice :=
  { invoiceId := "INV-9", id := "id9", contractId := "CT1"
    issuerId := "P1", counterpartyId := "P2"
    periodStart := 0, periodEnd := 0, totalAmount := 100
    lineItems := some { energy := 1000, gas := 0, fuel := 0 }
    status := "PENDING", confidenceScore := none
    matchedDeliveries := none }

def w9Db : Reconciliation.LedgerState :=
  { invoices := [w9Invoice], disputes := [], auditLog := [], now := 0 }

def w9Match : Reconciliation.MatchRecord :=
  { invoiceId := "INV-9", deliveryIds := ["D9"], confidenceScore := 97
    matchedAmount := 100, variance := 3 }

def w9TState : Treasury.TreasuryState :=
  { users := [{ id := "U3", role := "TREASURY" }]
    batches := [{ batchId := "SB-9", period := "2025-01"
                  totalNetAmount := 100, status := "COMPUTED"
                  executedAt := none }]
    approvals :=
      [{ batchId := "SB-9", userId := "U1", userName := "A"
         role := "MINISTER", signature := "s1" },
       { batchId := "SB-9", userId := "U2", userName := "B"
         role := "TREASURY", signature := "s2" }]
    payments := [], invoices := [], escrowAvailable := 0
    reservations := [], auditLog := [], now := 0 }

def w9Req : Treasury.ApproveRequest :=
  { batchId := "SB-9", userId := "U3", userName := "C"
    role := "TREASURY", signature := "s3" }

/-- C9: the code appends no audit event on status transitions. Applying
a match flips invoice INV-9 from `PENDING` to `MATCHED` with the audit
log left empty, and a quorum-reaching settlement approval flips batch
SB-9 from `COMPUTED` to `APPROVED` with the audit log left empty — the
claim requires exactly one appended event per transition. -/
theorem transitions_append_no_audit_event :
    (Reconciliation.updateInvoiceStatuses [w9Match] [] w9Db).invoices.map
        (fun i => i.status) = ["MATCHED"] ∧
    w9Db.invoices.map (fun i => i.status) = ["PENDING"] ∧
    (Reconciliation.updateInvoiceStatuses [w9Match] [] w9Db).auditLog
      = [] ∧
    (Treasury.approveSettlement w9TState w9Req).2.batches.map
        (fun b => b.status) = ["APPROVED"] ∧
    w9TState.batches.map (fun b => b.status) = ["COMPUTED"] ∧
    (Treasury.approveSettlement w9TState w9Req).2.auditLog = [] :=
  ⟨rfl, rfl, rfl, rfl, rfl, rfl⟩

end AuditTrail
